import Mathlib

/-!
Verification development for the t-pane tmux MCP server (src/unnamed/part_000,
version 0.4.0 copy, lines 1-967).  JavaScript strings are modelled as lists of
characters; the text-processing helpers of the source (split on newline, join,
trim, substring) are translated to list operations.  The tmux multiplexer and
the filesystem are external collaborators: their behaviour is modelled by
explicit state records and oracle parameters, documented at each definition.
-/

namespace TPane

/-- Model of the JavaScript method split with separator newline:
splitting the empty string yields one empty piece, and every newline
starts a new piece.  Mirrors uses such as output.split at part_000
lines 236, 412, 442. -/
def splitNL : List Char → List (List Char)
  | [] => [[]]
  | c :: cs =>
    if c = '\n' then [] :: splitNL cs
    else
      match splitNL cs with
      | [] => [[c]]
      | l :: ls => (c :: l) :: ls

/-- Model of the JavaScript Array.join with separator newline, as used on
line arrays in part_000 (lines 236, 432). -/
def joinNL : List (List Char) → List Char
  | [] => []
  | [l] => l
  | l :: l' :: ls => l ++ '\n' :: joinNL (l' :: ls)

/-- ASCII whitespace recognized by the model of String.trim and the regex
class backslash-s.  The JavaScript originals also accept rarer Unicode
spaces; all inputs relevant to the claims are ASCII. -/
def isWsJS (c : Char) : Bool :=
  c = ' ' || c = '\t' || c = '\n' || c = '\r' || c = Char.ofNat 11 || c = Char.ofNat 12

/-- Model of the JavaScript String.trim: drop leading and trailing
whitespace (part_000 lines 432, 479, 481). -/
def jsTrim (s : List Char) : List Char :=
  ((s.dropWhile isWsJS).reverse.dropWhile isWsJS).reverse

/-- The literal inserted by logCommand between the head and the tail of a
truncated output (part_000 line 219). -/
def truncMarker : List Char := "\n...truncated...\n".toList

/-- Model of the output truncation in logCommand, part_000 lines 216-220:
an output longer than 2000 characters is replaced by its first 1000
characters, the marker line, and its last 1000 characters. -/
def logTruncate (out : List Char) : List Char :=
  if 2000 < out.length then
    out.take 1000 ++ truncMarker ++ out.drop (out.length - 1000)
  else out

/-- Case-insensitive literal matching at the start of a text: returns the
remaining text after the literal when the literal matches.  Models the
case-insensitive regex flag of the prompt patterns for ASCII literals. -/
def dropCI : List Char → List Char → Option (List Char)
  | [], s => some s
  | _ :: _, [] => none
  | p :: ps, c :: cs => if p.toLower = c.toLower then dropCI ps cs else none

/-- Matches the regex tail consisting of zero or more whitespace
characters followed by a colon, anchored at the start of the text. -/
def afterWsColon : List Char → Bool
  | [] => false
  | c :: cs => if c = ':' then true else if isWsJS c then afterWsColon cs else false

/-- Runs an anchored matcher at every position of the text, true when some
position matches.  Models the unanchored search of RegExp.test. -/
def testAnywhere (m : List Char → Bool) : List Char → Bool
  | [] => m []
  | s@(_ :: rest) => m s || testAnywhere m rest

/-- Model of a regex of the shape literal, whitespace star, colon, with
the case-insensitive flag (the password, passphrase and username entries
of PROMPT_PATTERNS, part_000 lines 148-150). -/
def litWsColonCI (lit : String) : List Char → Bool :=
  testAnywhere fun s =>
    match dropCI lit.toList s with
    | some rest => afterWsColon rest
    | none => false

/-- Model of a case-insensitive literal regex (the remaining entries of
PROMPT_PATTERNS, part_000 lines 151-157). -/
def litCI (lit : String) : List Char → Bool :=
  testAnywhere fun s => (dropCI lit.toList s).isSome

/-- One entry of the prompt-classifier table: a matcher together with the
interaction type and human message it reports. -/
structure PromptPattern where
  test : List Char → Bool
  type : String
  message : String

/-- The ordered classifier table PROMPT_PATTERNS of part_000 lines
147-158, one entry per source regex, in source order. -/
def PROMPT_PATTERNS : List PromptPattern := [
  ⟨litWsColonCI "password", "password", "Password required"⟩,
  ⟨litWsColonCI "passphrase", "password", "Passphrase required"⟩,
  ⟨litWsColonCI "username", "username", "Username required"⟩,
  ⟨litCI "Username for", "git-username", "Git username required"⟩,
  ⟨litCI "Password for", "git-password", "Git password required"⟩,
  ⟨litCI "[y/N]", "yes-no", "Yes/No confirmation required"⟩,
  ⟨litCI "[Y/n]", "yes-no", "Yes/No confirmation required"⟩,
  ⟨litCI "(y/n)", "yes-no", "Yes/No confirmation required"⟩,
  ⟨litCI "Continue?", "confirmation", "Confirmation required"⟩,
  ⟨litCI "Are you sure", "confirmation", "Confirmation required"⟩]

/-- The last five newline-separated lines of a text, joined back with
newlines: the window examined by checkForPrompt (part_000 line 236). -/
def lastFive (output : List Char) : List Char :=
  joinNL ((splitNL output).drop ((splitNL output).length - 5))

/-- Result record of checkForPrompt. -/
structure PromptCheck where
  requiresInteraction : Bool
  type : Option String
  message : Option String
deriving DecidableEq

/-- Model of checkForPrompt, part_000 lines 235-245: the ordered table is
scanned over the last five lines and the first matching entry wins. -/
def checkForPrompt (output : List Char) : PromptCheck :=
  match PROMPT_PATTERNS.find? (fun p => p.test (lastFive output)) with
  | some p => ⟨true, some p.type, some p.message⟩
  | none => ⟨false, none, none⟩

/-- True when a buffer line begins with the prompt glyph (part_000 line
417). -/
def isPromptLine (l : List Char) : Bool :=
  match l with
  | [] => false
  | c :: _ => c = '❯'

/-- Indices of the prompt lines of a buffer, counting from the given
offset; mirrors the forEach accumulation at part_000 lines 415-420. -/
def promptIdxsFrom : Nat → List (List Char) → List Nat
  | _, [] => []
  | i, l :: ls =>
    if isPromptLine l then i :: promptIdxsFrom (i + 1) ls
    else promptIdxsFrom (i + 1) ls

/-- Indices of the prompt lines of a buffer. -/
def promptIdxs (lines : List (List Char)) : List Nat :=
  promptIdxsFrom 0 lines

/-- Model of the tier 1 prompt-delimited extraction of executeInPane,
part_000 lines 415-432: with at least two prompt lines, the slice from
the line after the second-to-last prompt up to two lines before the last
prompt is joined and trimmed; the subtraction producing the end index is
done on integers exactly as in JavaScript. -/
def tier1Capture (lines : List (List Char)) : Option (List Char) :=
  let pls := promptIdxs lines
  if 2 ≤ pls.length then
    let lastP := pls.getD (pls.length - 1) 0
    let secondLastP := pls.getD (pls.length - 2) 0
    if (secondLastP : Int) + 1 ≤ (lastP : Int) - 2 then
      some (jsTrim (joinNL ((lines.drop (secondLastP + 1)).take (lastP - 2 - secondLastP))))
    else none
  else none

/-- Anchored case-sensitive literal matching at the start of a text. -/
def startsWithChars : List Char → List Char → Bool
  | [], _ => true
  | _ :: _, [] => false
  | p :: ps, c :: cs => p = c && startsWithChars ps cs

/-- Substring containment, the semantics of a sed address consisting of a
literal pattern. -/
def containsSub (pat : List Char) : List Char → Bool
  | [] => startsWithChars pat []
  | s@(_ :: rest) => startsWithChars pat s || containsSub pat rest

/-- Line-range selection of sed -n with a start address and an end
address: outside a range, a line matching the start address opens a range
and is printed; inside a range every line is printed and a line matching
the end address closes the range.  The end address is never tested on the
line that opened the range. -/
def sedRangeAux (startPat endPat : List Char) : Bool → List (List Char) → List (List Char)
  | _, [] => []
  | false, l :: ls =>
    if containsSub startPat l then l :: sedRangeAux startPat endPat true ls
    else sedRangeAux startPat endPat false ls
  | true, l :: ls =>
    if containsSub endPat l then l :: sedRangeAux startPat endPat false ls
    else l :: sedRangeAux startPat endPat true ls

/-- All lines printed by the first sed of the tier 2 pipeline. -/
def sedRange (startPat endPat : List Char) (lines : List (List Char)) : List (List Char) :=
  sedRangeAux startPat endPat false lines

/-- The start marker text for a command id (part_000 line 463). -/
def startTok (id : List Char) : List Char :=
  "===CMD_".toList ++ id ++ "_START===".toList

/-- The end marker text for a command id (part_000 line 463). -/
def endTok (id : List Char) : List Char :=
  "===CMD_".toList ++ id ++ "_END===".toList

/-- The line list produced by the tier 2 shell pipeline of part_000 line
469: sed selects the range between the lines matching the start and end
markers, and the second sed deletes the first and last line of that
selection. -/
def tier2Pipeline (id : List Char) (bufferLines : List (List Char)) : List (List Char) :=
  ((sedRange (startTok id) (endTok id) bufferLines).drop 1).dropLast

/-- The tier 2 captured output: the pipeline text joined and then trimmed
exactly as the source trims markedOutput (part_000 line 479). -/
def tier2Capture (id : List Char) (bufferLines : List (List Char)) : List Char :=
  jsTrim (joinNL (tier2Pipeline id bufferLines))

/-- The CommandExecution record of part_000 lines 29-38.  The interaction
fields are optional in the source and are therefore options here; the
linesCaptuerd field keeps its source spelling. -/
structure CommandExecution where
  commandId : List Char
  command : List Char
  output : List Char
  exitCode : Int
  linesCaptuerd : Nat
  requiresInteraction : Option Bool
  interactionType : Option String
  interactionMessage : Option String
deriving DecidableEq

/-- True on the error constructor of Except. -/
def isErr {α : Type} : Except String α → Bool
  | .error _ => true
  | .ok _ => false

/-- Outcomes of the awaited external calls made by one executeInPane
invocation.  Each field is the result of one child-process call, in
program order: the initial send-keys, the tier 1 full capture, the
send-keys of the marked command, the capture feeding the sed pipeline
given as buffer lines, the full capture used for the tier 2 prompt check,
and the short capture of the no-capture mode.  An error value models the
promise rejecting. -/
structure ExecEnv where
  sendCmd : Except String Unit
  snap1 : Except String (List Char)
  sendMarked : Except String Unit
  snap2 : Except String (List (List Char))
  snap3 : Except String (List Char)
  snapNC : Except String (List Char)

/-- The CommandExecution built by the catch block of executeInPane,
part_000 lines 497-504. -/
def errorResult (commandId command : List Char) (e : String) : CommandExecution :=
  { commandId := commandId, command := command,
    output := "Error capturing output: ".toList ++ e.toList,
    exitCode := -1, linesCaptuerd := 0,
    requiresInteraction := none, interactionType := none, interactionMessage := none }

/-- The try block of executeInPane for captureOutput true, part_000 lines
409-515: tier 1 first, tier 2 on fallback, any rejection converted by the
catch block into an error result. -/
def captureFlow (commandId command : List Char) (env : ExecEnv) : CommandExecution :=
  match env.snap1 with
  | .error e => errorResult commandId command e
  | .ok snap1 =>
    match tier1Capture (splitNL snap1) with
    | some output =>
      let pc := checkForPrompt snap1
      { commandId := commandId, command := command, output := output, exitCode := 0,
        linesCaptuerd := (splitNL output).length,
        requiresInteraction := some pc.requiresInteraction,
        interactionType := pc.type, interactionMessage := pc.message }
    | none =>
      match env.sendMarked with
      | .error e => errorResult commandId command e
      | .ok _ =>
        match env.snap2 with
        | .error e => errorResult commandId command e
        | .ok buf =>
          match env.snap3 with
          | .error e => errorResult commandId command e
          | .ok full =>
            let output := jsTrim (joinNL (tier2Pipeline commandId buf))
            let pc := checkForPrompt full
            { commandId := commandId, command := command, output := output, exitCode := 0,
              linesCaptuerd := (splitNL output).length,
              requiresInteraction := some pc.requiresInteraction,
              interactionType := pc.type, interactionMessage := pc.message }

/-- Model of executeInPane, part_000 lines 397-543, as a function of the
external-call outcomes.  The initial send-keys and the no-capture
snapshot are outside the try block, so their rejection propagates out of
the function; every path inside the try block returns a record. -/
def executeInPane (commandId command : List Char) (captureOutput : Bool) (env : ExecEnv) :
    Except String CommandExecution :=
  match env.sendCmd with
  | .error e => .error e
  | .ok _ =>
    if captureOutput then .ok (captureFlow commandId command env)
    else
      match env.snapNC with
      | .error e => .error e
      | .ok content =>
        let pc := checkForPrompt content
        .ok { commandId := commandId, command := command,
              output := "Command sent (output not captured)".toList,
              exitCode := 0, linesCaptuerd := 0,
              requiresInteraction := some pc.requiresInteraction,
              interactionType := pc.type, interactionMessage := pc.message }

/-- True exactly when some awaited call inside the try block of the
capture path rejects: the tier 1 capture itself, or, after tier 1
declines, any of the three tier 2 calls. -/
def tierException (env : ExecEnv) : Bool :=
  match env.snap1 with
  | .error _ => true
  | .ok s =>
    (tier1Capture (splitNL s)).isNone
      && (isErr env.sendMarked || isErr env.snap2 || isErr env.snap3)

/-- A tmux pane address: window index and pane index within the single
modelled session. -/
structure PaneAddr where
  window : Nat
  paneIndex : Nat
deriving DecidableEq

/-- Modelled tmux session state.  Panes are listed in the order produced
by list-panes with the all flag (ascending window index, so a window
created later appears after all existing panes).  Session environment
variables are session-scoped names: set-environment without a global flag
writes into the session environment and show-environment with any pane
target reads that same session environment, tmux has no per-pane
environment.  The list-panes command without the all flag lists only the
panes of the window holding the active pane.  The nextWindow counter is
the index the next new-window call allocates, kept above every existing
window index. -/
structure TmuxState where
  panes : List PaneAddr
  activePane : PaneAddr
  sessionEnv : List String
  nextWindow : Nat
deriving DecidableEq

/-- Process state relevant to findOrCreatePane: the in-process directory
cache paneIdsByDirectory (part_000 line 115) and the tmux session. -/
structure SysState where
  cache : List (String × PaneAddr)
  tmux : TmuxState
deriving DecidableEq

/-- Lookup in the directory cache (Map.get). -/
def cacheGet (c : List (String × PaneAddr)) (d : String) : Option PaneAddr :=
  (c.find? (fun e => e.1 = d)).map (fun e => e.2)

/-- Removal from the directory cache (Map.delete). -/
def cacheDel (c : List (String × PaneAddr)) (d : String) : List (String × PaneAddr) :=
  c.filter (fun e => ¬ e.1 = d)

/-- Update of the directory cache (Map.set). -/
def cacheSet (c : List (String × PaneAddr)) (d : String) (p : PaneAddr) :
    List (String × PaneAddr) :=
  (d, p) :: cacheDel c d

/-- The panes listed by list-panes without the all flag: the panes of the
window of the active pane. -/
def currentWindowPanes (t : TmuxState) : List PaneAddr :=
  t.panes.filter (fun p => p.window = t.activePane.window)

/-- The marker variable name for a directory, part_000 line 350.  The
directory hash, in the source the first eight hex characters of a SHA-256
digest (getDirectoryHash, lines 122-125), is a parameter of the model:
the claims depend only on which directories share a hash. -/
def envVarName (hash : String → String) (dir : String) : String :=
  "CLAUDE_DIR_" ++ hash dir

/-- The environment-marker scan of part_000 lines 349-370.  Because the
marker variable is session-scoped, the per-pane show-environment test
succeeds for every pane of the session as soon as the variable is set, so
the loop echoes the first listed pane and breaks; with the variable unset
the loop prints nothing. -/
def envScan (hash : String → String) (t : TmuxState) (dir : String) : Option PaneAddr :=
  if envVarName hash dir ∈ t.sessionEnv then t.panes.head? else none

/-- Pane creation, part_000 lines 372-394: new-window makes a fresh
window with one pane and gives it focus, display-message then reports
that pane, set-environment records the session-scoped marker, the cache
is updated, and last-window restores the previously focused window. -/
def createPane (hash : String → String) (st : SysState) (dir : String) : PaneAddr × SysState :=
  let newP : PaneAddr := ⟨st.tmux.nextWindow, 0⟩
  let tm := st.tmux
  let v := envVarName hash dir
  let tm' : TmuxState :=
    { panes := tm.panes ++ [newP],
      activePane := tm.activePane,
      sessionEnv := if v ∈ tm.sessionEnv then tm.sessionEnv else tm.sessionEnv ++ [v],
      nextWindow := tm.nextWindow + 1 }
  (newP, { cache := cacheSet st.cache dir newP, tmux := tm' })

/-- The scan-then-create tail of findOrCreatePane (part_000 lines
349-394): adopt the pane found by the environment scan, otherwise create
one. -/
def scanOrCreate (hash : String → String) (st : SysState) (dir : String) : PaneAddr × SysState :=
  match envScan hash st.tmux dir with
  | some p => (p, { st with cache := cacheSet st.cache dir p })
  | none => createPane hash st dir

/-- Model of findOrCreatePane, part_000 lines 320-395.  With a cached
pane different from the current pane, the liveness check greps the
current-window pane list for the cached address: on a hit the cached pane
is returned unchanged, otherwise grep exits nonzero, the promise rejects,
the catch deletes the cache entry and the call falls through to the scan.
A cached pane equal to the current pane skips the liveness block and
falls through directly. -/
def findOrCreatePane (hash : String → String) (st : SysState) (dir : String) :
    PaneAddr × SysState :=
  let current := st.tmux.activePane
  match cacheGet st.cache dir with
  | some p =>
    if p = current then scanOrCreate hash st dir
    else if p ∈ currentWindowPanes st.tmux then (p, st)
    else scanOrCreate hash { st with cache := cacheDel st.cache dir } dir
  | none => scanOrCreate hash st dir

/-- Identity stands in for the directory hash in concrete runs: the only
relevant property is that distinct demo directories keep distinct marker
names. -/
def demoHash : String → String := fun d => d

/-- A fresh session: one window holding the pane the operator is using,
no marker variables, an empty cache. -/
def demoSt0 : SysState :=
  { cache := [],
    tmux := { panes := [⟨0, 0⟩], activePane := ⟨0, 0⟩, sessionEnv := [], nextWindow := 1 } }

/-- First call: resolve directory a in the fresh session. -/
def demoR1 : PaneAddr × SysState := findOrCreatePane demoHash demoSt0 "a"

/-- Second call: resolve directory b. -/
def demoR2 : PaneAddr × SysState := findOrCreatePane demoHash demoR1.2 "b"

/-- Third call: resolve directory a again, both panes still alive. -/
def demoR3 : PaneAddr × SysState := findOrCreatePane demoHash demoR2.2 "a"

/-- Fourth call: resolve directory b again. -/
def demoR4 : PaneAddr × SysState := findOrCreatePane demoHash demoR3.2 "b"

/-- A concrete scrollback used in witnesses: one completed command
between two prompt lines. -/
def demoBuffer1 : List (List Char) :=
  ["❯ ls".toList, "file1".toList, "file2".toList, "❯".toList, "".toList]

/-- The same scrollback as one text. -/
def demoSnap1 : List Char := "❯ ls\nfile1\nfile2\n❯\n".toList

/-- An environment in which every external call succeeds. -/
def demoEnvOk : ExecEnv :=
  { sendCmd := .ok (), snap1 := .ok demoSnap1, sendMarked := .ok (),
    snap2 := .ok [], snap3 := .ok [], snapNC := .ok [] }

/-- The record returned by the modelled executeInPane in the all-ok
environment. -/
def demoResult : CommandExecution :=
  ((executeInPane "7".toList "ls".toList true demoEnvOk).toOption).getD (errorResult [] [] "")

/-- A state whose cache still references a destroyed pane for directory
a: the session only holds the operator pane. -/
def demoStale : SysState :=
  { cache := [("a", ⟨1, 0⟩)],
    tmux := { panes := [⟨0, 0⟩], activePane := ⟨0, 0⟩,
              sessionEnv := ["CLAUDE_DIR_a"], nextWindow := 2 } }

/-- Task lifecycle states, part_000 line 54. -/
inductive TaskStatus
  | pending
  | running
  | completed
  | failed
deriving DecidableEq

/-- The BackgroundTask record of part_000 lines 50-58.  Timestamps are
modelled by their epoch milliseconds. -/
structure BackgroundTask where
  id : String
  task : String
  outputFile : String
  status : TaskStatus
  startTime : Nat
  endTime : Option Nat
  paneId : Option String
deriving DecidableEq

/-- The record appended by the launch handler with the given status. -/
def mkNewTask (id taskDesc outFile : String) (now : Nat) (pane : String) (st : TaskStatus) :
    BackgroundTask :=
  { id := id, task := taskDesc, outputFile := outFile, status := st,
    startTime := now, endTime := none, paneId := some pane }

/-- The persisted task list after the launch_background_task handler of
part_000 lines 764-811 returns: the new record is pushed with status
pending, and before the final save the same record object is set to
running, so the stored list ends with the running record. -/
def launchBackgroundTask (tasks : List BackgroundTask) (id taskDesc outFile : String)
    (now : Nat) (pane : String) : List BackgroundTask :=
  tasks ++ [mkNewTask id taskDesc outFile now pane .running]

/-- The per-task step of the check_background_tasks handler, part_000
lines 831-843: a running task whose expected output file exists becomes
completed with the current time as end time; every other task is left
alone.  The fileExists oracle models fs.access succeeding. -/
def refreshStep (fileExists : String → Bool) (now : Nat) (t : BackgroundTask) :
    BackgroundTask :=
  if t.status = .running then
    if fileExists t.outputFile then { t with status := .completed, endTime := some now }
    else t
  else t

/-- The full refresh pass of the check_background_tasks handler over the
loaded list. -/
def checkBackgroundTasks (fileExists : String → Bool) (now : Nat)
    (tasks : List BackgroundTask) : List BackgroundTask :=
  tasks.map (refreshStep fileExists now)

/-- The timeout callback armed by the launch handler, part_000 lines
803-811: findIndex locates the first record with the task id, and only a
record still running is switched to failed with an end time. -/
def timeoutCallback (taskId : String) (now : Nat) : List BackgroundTask → List BackgroundTask
  | [] => []
  | t :: ts =>
    if t.id = taskId then
      if t.status = .running then { t with status := .failed, endTime := some now } :: ts
      else t :: ts
    else t :: timeoutCallback taskId now ts

/-- A concrete running task used in witnesses. -/
def demoTask : BackgroundTask := mkNewTask "t1" "summarize" "out.md" 3 "task-pane" .running

theorem splitNL_ne_nil (s : List Char) : splitNL s ≠ [] := by
  induction s with
  | nil => simp [splitNL]
  | cons c cs ih =>
    simp only [splitNL]
    split
    · simp
    · cases h : splitNL cs with
      | nil => simp
      | cons l ls => simp

theorem length_splitNL_pos (s : List Char) : 1 ≤ (splitNL s).length := by
  have := splitNL_ne_nil s
  cases h : splitNL s with
  | nil => exact absurd h this
  | cons l ls => simp

theorem mem_splitNL_no_nl (s : List Char) : ∀ l ∈ splitNL s, '\n' ∉ l := by
  induction s with
  | nil =>
    intro l hl
    simp only [splitNL, List.mem_singleton] at hl
    simp [hl]
  | cons c cs ih =>
    intro l hl
    simp only [splitNL] at hl
    by_cases hc : c = '\n'
    · rw [if_pos hc] at hl
      rcases List.mem_cons.mp hl with h | h
      · simp [h]
      · exact ih l h
    · rw [if_neg hc] at hl
      cases hsp : splitNL cs with
      | nil => exact absurd hsp (splitNL_ne_nil cs)
      | cons l0 ls =>
        rw [hsp] at hl
        rcases List.mem_cons.mp hl with h | h
        · subst h
          intro hmem
          rcases List.mem_cons.mp hmem with h | h
          · exact hc h.symm
          · exact ih l0 (hsp ▸ List.mem_cons_self l0 ls) h
        · exact ih l (hsp ▸ List.mem_cons_of_mem l0 h)

theorem splitNL_single (l : List Char) (h : '\n' ∉ l) : splitNL l = [l] := by
  induction l with
  | nil => rfl
  | cons c cs ih =>
    have hc : ¬ c = '\n' := fun hh => h (hh ▸ List.mem_cons_self c cs)
    have hcs : '\n' ∉ cs := fun hh => h (List.mem_cons_of_mem c hh)
    simp only [splitNL, if_neg hc, ih hcs]

theorem splitNL_append_nl (l t : List Char) (h : '\n' ∉ l) :
    splitNL (l ++ '\n' :: t) = l :: splitNL t := by
  induction l with
  | nil => simp [splitNL]
  | cons c cs ih =>
    have hc : ¬ c = '\n' := fun hh => h (hh ▸ List.mem_cons_self c cs)
    have hcs : '\n' ∉ cs := fun hh => h (List.mem_cons_of_mem c hh)
    simp only [List.cons_append, splitNL, if_neg hc, List.append_eq, ih hcs]

theorem splitNL_joinNL (ls : List (List Char)) (h : ∀ l ∈ ls, '\n' ∉ l) (hne : ls ≠ []) :
    splitNL (joinNL ls) = ls := by
  induction ls with
  | nil => exact absurd rfl hne
  | cons l ls ih =>
    cases ls with
    | nil => exact splitNL_single l (h l (List.mem_cons_self l []))
    | cons l' ls' =>
      have hl : '\n' ∉ l := h l (List.mem_cons_self l (l' :: ls'))
      have hrest : ∀ x ∈ l' :: ls', '\n' ∉ x := fun x hx => h x (List.mem_cons_of_mem l hx)
      simp only [joinNL, splitNL_append_nl l _ hl, ih hrest (by simp)]

theorem lastFive_idem (out : List Char) : lastFive (lastFive out) = lastFive out := by
  have hsub : (splitNL out).drop ((splitNL out).length - 5) <:+ splitNL out :=
    List.drop_suffix _ _
  have hnl : ∀ l ∈ (splitNL out).drop ((splitNL out).length - 5), '\n' ∉ l :=
    fun l hl => mem_splitNL_no_nl out l (hsub.subset hl)
  have hlen : ((splitNL out).drop ((splitNL out).length - 5)).length ≤ 5 := by
    rw [List.length_drop]
    omega
  have hpos : 1 ≤ ((splitNL out).drop ((splitNL out).length - 5)).length := by
    rw [List.length_drop]
    have := length_splitNL_pos out
    omega
  have hne : (splitNL out).drop ((splitNL out).length - 5) ≠ [] := by
    intro hh
    rw [hh] at hpos
    simp at hpos
  unfold lastFive
  rw [splitNL_joinNL _ hnl hne]
  have hz : ((splitNL out).drop ((splitNL out).length - 5)).length - 5 = 0 := by omega
  rw [hz, List.drop_zero]

theorem checkForPrompt_lastFive (out : List Char) :
    checkForPrompt (lastFive out) = checkForPrompt out := by
  simp only [checkForPrompt, lastFive_idem]

theorem startsWithChars_self (l : List Char) : startsWithChars l l = true := by
  induction l with
  | nil => rfl
  | cons c cs ih => simp [startsWithChars, ih]

theorem containsSub_self (l : List Char) : containsSub l l = true := by
  cases l with
  | nil => rfl
  | cons c cs => simp [containsSub, startsWithChars_self]

theorem sedRangeAux_false_skip (sp ep : List Char) (pre rest : List (List Char))
    (h : ∀ l ∈ pre, containsSub sp l = false) :
    sedRangeAux sp ep false (pre ++ rest) = sedRangeAux sp ep false rest := by
  induction pre with
  | nil => rfl
  | cons l pre ih =>
    have hl := h l (List.mem_cons_self _ _)
    simp only [List.cons_append, sedRangeAux, hl, Bool.false_eq_true, if_false]
    exact ih fun x hx => h x (List.mem_cons_of_mem _ hx)

theorem sedRangeAux_true_out (sp ep : List Char) (out post : List (List Char)) (e : List Char)
    (hout : ∀ l ∈ out, containsSub ep l = false) (he : containsSub ep e = true) :
    sedRangeAux sp ep true (out ++ e :: post) = out ++ e :: sedRangeAux sp ep false post := by
  induction out with
  | nil => simp [sedRangeAux, he]
  | cons l out ih =>
    have hl := hout l (List.mem_cons_self _ _)
    simp only [List.cons_append, sedRangeAux, hl, Bool.false_eq_true, if_false,
      List.append_eq]
    rw [ih fun x hx => hout x (List.mem_cons_of_mem _ hx)]

/-- Claim C1 counterexample: a buffer holding exactly the marker lines
around the one-line output of the command, with two spaces of padding on
each side; the tier 2 capture drops the padding, so it differs from the
text between the markers, which is the text the command printed. -/
theorem C1_tier2_counterexample :
    tier2Capture "7".toList
        [startTok "7".toList, "  hello  ".toList, endTok "7".toList] ≠
      joinNL ["  hello  ".toList] ∧
    tier2Capture "7".toList
        [startTok "7".toList, "  hello  ".toList, endTok "7".toList] =
      "hello".toList := by decide

/-- Claim C1 amended: when exactly one buffer line holds the start
marker and the lines between the markers are free of the end marker, the
tier 2 capture returns the text strictly between the marker lines with
its leading and trailing whitespace removed by the final trim. -/
theorem C1_tier2_trim (id : List Char) (pre out post : List (List Char))
    (hpre : ∀ l ∈ pre, containsSub (startTok id) l = false)
    (hout : ∀ l ∈ out, containsSub (endTok id) l = false)
    (hpost : ∀ l ∈ post, containsSub (startTok id) l = false) :
    tier2Capture id (pre ++ [startTok id] ++ out ++ [endTok id] ++ post) =
      jsTrim (joinNL out) := by
  have hshape : pre ++ [startTok id] ++ out ++ [endTok id] ++ post =
      pre ++ (startTok id :: (out ++ endTok id :: post)) := by
    simp
  rw [hshape]
  unfold tier2Capture tier2Pipeline sedRange
  rw [sedRangeAux_false_skip _ _ pre _ hpre]
  have hopen : sedRangeAux (startTok id) (endTok id) false
      (startTok id :: (out ++ endTok id :: post)) =
      startTok id :: sedRangeAux (startTok id) (endTok id) true (out ++ endTok id :: post) := by
    simp [sedRangeAux, containsSub_self]
  rw [hopen, sedRangeAux_true_out _ _ out post _ hout (containsSub_self _)]
  have hnone : sedRangeAux (startTok id) (endTok id) false post = [] := by
    have := sedRangeAux_false_skip (startTok id) (endTok id) post [] hpost
    simpa using this
  rw [hnone]
  simp only [List.drop_one, List.tail_cons]
  rw [show out ++ [endTok id] = out ++ [endTok id] from rfl, List.dropLast_concat]

/-- Witness for the amended C1 on a concrete buffer. -/
theorem C1_tier2_trim_witness :
    tier2Capture "9".toList
        (["❯ ls".toList] ++ [startTok "9".toList] ++ ["hi".toList] ++
          [endTok "9".toList] ++ ["❯".toList]) =
      jsTrim (joinNL ["hi".toList]) :=
  C1_tier2_trim "9".toList ["❯ ls".toList] ["hi".toList] ["❯".toList]
    (by decide) (by decide) (by decide)

theorem promptIdxsFrom_lt (ls : List (List Char)) :
    ∀ k i, i ∈ promptIdxsFrom k ls → i < k + ls.length := by
  induction ls with
  | nil =>
    intro k i h
    simp [promptIdxsFrom] at h
  | cons l ls ih =>
    intro k i h
    simp only [promptIdxsFrom] at h
    by_cases hp : isPromptLine l
    · rw [if_pos hp] at h
      rcases List.mem_cons.mp h with h | h
      · subst h
        simp only [List.length_cons]
        omega
      · have := ih (k + 1) i h
        simp only [List.length_cons]
        omega
    · rw [if_neg hp] at h
      have := ih (k + 1) i h
      simp only [List.length_cons]
      omega

theorem promptIdx_lt (lines : List (List Char)) (j : Nat)
    (h : j < (promptIdxs lines).length) :
    (promptIdxs lines).getD j 0 < lines.length := by
  have hm : (promptIdxs lines).getD j 0 ∈ promptIdxs lines := by
    rw [List.getD_eq_getElem _ _ h]
    exact List.getElem_mem h
  have := promptIdxsFrom_lt lines 0 _ hm
  omega

/-- Claim C2: with at least two prompt lines in the snapshot, tier 1
returns exactly the slice between the second-to-last prompt line and two
lines before the last prompt line, joined and trimmed; with an empty
range tier 1 declines, and captureFlow then produces the tier 2 marker
capture. -/
theorem C2_tier1_window :
    (∀ (lines : List (List Char)) (s l : Nat),
      2 ≤ (promptIdxs lines).length →
      s = (promptIdxs lines).getD ((promptIdxs lines).length - 2) 0 →
      l = (promptIdxs lines).getD ((promptIdxs lines).length - 1) 0 →
      (s + 3 ≤ l → ∃ mid,
          lines = lines.take (s + 1) ++ mid ++ lines.drop (l - 1) ∧
          mid.length = l - 2 - s ∧
          tier1Capture lines = some (jsTrim (joinNL mid))) ∧
      (l < s + 3 → tier1Capture lines = none)) ∧
    (∀ (cid cmd : List Char) (env : ExecEnv) (s : List Char) (buf : List (List Char))
      (full : List Char),
      env.snap1 = .ok s → tier1Capture (splitNL s) = none →
      env.sendMarked = .ok () → env.snap2 = .ok buf → env.snap3 = .ok full →
      (captureFlow cid cmd env).output = tier2Capture cid buf) := by
  constructor
  · intro lines s l h2 hs hl
    have hlt : l < lines.length := by
      rw [hl]
      exact promptIdx_lt lines _ (by omega)
    constructor
    · intro hr
      refine ⟨(lines.drop (s + 1)).take (l - 2 - s), ?_, ?_, ?_⟩
      · rw [List.append_assoc]
        conv_lhs => rw [← List.take_append_drop (s + 1) lines]
        congr 1
        conv_lhs => rw [← List.take_append_drop (l - 2 - s) (lines.drop (s + 1))]
        congr 1
        rw [List.drop_drop]
        congr 1
        omega
      · simp only [List.length_take, List.length_drop]
        omega
      · simp only [tier1Capture]
        rw [← hs, ← hl, if_pos h2,
          if_pos (show (s : Int) + 1 ≤ (l : Int) - 2 by omega)]
    · intro hr
      simp only [tier1Capture]
      rw [← hs, ← hl, if_pos h2,
        if_neg (show ¬ ((s : Int) + 1 ≤ (l : Int) - 2) by omega)]
  · intro cid cmd env s buf full h1 ht hm h4 h5
    simp only [captureFlow, h1, ht, hm, h4, h5, tier2Capture]

/-- Witness for C2 on a concrete scrollback with two prompt lines. -/
theorem C2_tier1_window_witness :
    ∃ mid,
      demoBuffer1 = demoBuffer1.take 1 ++ mid ++ demoBuffer1.drop 2 ∧
      mid.length = 1 ∧
      tier1Capture demoBuffer1 = some (jsTrim (joinNL mid)) :=
  (C2_tier1_window.1 demoBuffer1 0 3 (by decide) (by decide) (by decide)).1 (by decide)

/-- Claim C6: the prompt detector looks only at the last five lines, the
ordered table is scanned with first match winning, trailing text matching
a table entry is classified with that entry, and text matching no entry
is not flagged. -/
theorem C6_prompt_detector :
    (∀ out, checkForPrompt out = checkForPrompt (lastFive out)) ∧
    checkForPrompt "Password: ".toList =
      ⟨true, some "password", some "Password required"⟩ ∧
    checkForPrompt "Continue? [y/N] ".toList =
      ⟨true, some "yes-no", some "Yes/No confirmation required"⟩ ∧
    checkForPrompt "total 0\ndrwxr-xr-x  2 user user 4096 Oct 10 12:00 .".toList =
      ⟨false, none, none⟩ ∧
    (∀ out, (checkForPrompt out).requiresInteraction = true ↔
      ∃ p ∈ PROMPT_PATTERNS, p.test (lastFive out) = true) := by
  refine ⟨fun out => (checkForPrompt_lastFive out).symm, by decide, by decide, by decide, ?_⟩
  intro out
  unfold checkForPrompt
  cases hf : PROMPT_PATTERNS.find? (fun p => p.test (lastFive out)) with
  | none =>
    simp only []
    constructor
    · intro hh
      exact absurd hh (by simp)
    · rintro ⟨p, hp, ht⟩
      have := List.find?_eq_none.mp hf p hp
      exact absurd ht this
  | some q =>
    simp only []
    have hq0 := List.find?_some hf
    have hq : q.test (lastFive out) = true := hq0
    have hm : q ∈ PROMPT_PATTERNS := List.mem_of_find?_eq_some hf
    constructor
    · intro _
      exact ⟨q, hm, hq⟩
    · intro _
      trivial

/-- Witness for C6: the password example matches some table entry. -/
theorem C6_prompt_detector_witness :
    ∃ p ∈ PROMPT_PATTERNS, p.test (lastFive "Password: ".toList) = true :=
  (C6_prompt_detector.2.2.2.2 "Password: ".toList).mp (by decide)

/-- Claim C3: the task store operations respect the four-state machine.
A launch appends exactly one record, already running, and leaves earlier
records untouched; a refresh leaves a running task alone while its file
is missing, completes it with the refresh time once the file exists, and
the recorded end time is then at least the start time under a monotone
clock; tasks not running are never touched by a refresh; the timeout
callback rewrites only the first record with the armed id, and only when
that record is still running; every store transition either keeps a
record or moves a running record to a terminal state, so completed and
failed are sinks. -/
theorem C3_task_state_machine :
    (∀ (ts : List BackgroundTask) (id d f : String) (now : Nat) (p : String),
      (launchBackgroundTask ts id d f now p).take ts.length = ts ∧
      (launchBackgroundTask ts id d f now p).getLast? =
        some (mkNewTask id d f now p .running)) ∧
    (∀ (fe : String → Bool) (now : Nat) (t : BackgroundTask),
      (t.status = .running → fe t.outputFile = false → refreshStep fe now t = t) ∧
      (t.status = .running → fe t.outputFile = true →
        refreshStep fe now t = { t with status := .completed, endTime := some now }) ∧
      (t.status = .running → fe t.outputFile = true → t.startTime ≤ now →
        ∃ e, (refreshStep fe now t).endTime = some e ∧ t.startTime ≤ e) ∧
      (t.status ≠ .running → refreshStep fe now t = t)) ∧
    (∀ (fe : String → Bool) (now : Nat) (ts : List BackgroundTask),
      checkBackgroundTasks fe now ts = ts.map (refreshStep fe now)) ∧
    (∀ (tid : String) (now : Nat) (t : BackgroundTask) (ts : List BackgroundTask),
      (t.id = tid → t.status = .running →
        timeoutCallback tid now (t :: ts) =
          { t with status := .failed, endTime := some now } :: ts) ∧
      (t.id = tid → t.status ≠ .running → timeoutCallback tid now (t :: ts) = t :: ts) ∧
      (t.id ≠ tid → timeoutCallback tid now (t :: ts) = t :: timeoutCallback tid now ts)) ∧
    (∀ (tid : String) (now : Nat) (ts : List BackgroundTask),
      (timeoutCallback tid now ts).length = ts.length) ∧
    (∀ (tid : String) (now : Nat) (ts : List BackgroundTask) (i : Nat),
      (timeoutCallback tid now ts)[i]? = ts[i]? ∨
      ∃ t, ts[i]? = some t ∧ t.status = .running ∧
        (timeoutCallback tid now ts)[i]? =
          some { t with status := .failed, endTime := some now }) ∧
    (∀ (fe : String → Bool) (now : Nat) (ts : List BackgroundTask) (i : Nat),
      (checkBackgroundTasks fe now ts)[i]? = ts[i]? ∨
      ∃ t, ts[i]? = some t ∧ t.status = .running ∧
        (checkBackgroundTasks fe now ts)[i]? =
          some { t with status := .completed, endTime := some now }) := by
  refine ⟨?_, ?_, ?_, ?_, ?_, ?_, ?_⟩
  · intro ts id d f now p
    constructor
    · exact List.take_left ts _
    · exact List.getLast?_concat ts
  · intro fe now t
    refine ⟨?_, ?_, ?_, ?_⟩
    · intro hr hf
      simp [refreshStep, hr, hf]
    · intro hr hf
      simp [refreshStep, hr, hf]
    · intro hr hf hle
      refine ⟨now, ?_, hle⟩
      simp [refreshStep, hr, hf]
    · intro hr
      simp [refreshStep, hr]
  · intro fe now ts
    rfl
  · intro tid now t ts
    refine ⟨?_, ?_, ?_⟩
    · intro h1 h2
      simp [timeoutCallback, h1, h2]
    · intro h1 h2
      simp [timeoutCallback, h1, h2]
    · intro h1
      simp [timeoutCallback, h1]
  · intro tid now ts
    induction ts with
    | nil => rfl
    | cons t ts ih =>
      simp only [timeoutCallback]
      by_cases h1 : t.id = tid
      · rw [if_pos h1]
        by_cases h2 : t.status = .running
        · rw [if_pos h2]
          simp
        · rw [if_neg h2]
      · rw [if_neg h1]
        simp [ih]
  · intro tid now ts
    induction ts with
    | nil =>
      intro i
      left
      rfl
    | cons t ts ih =>
      intro i
      by_cases h1 : t.id = tid
      · by_cases hr : t.status = .running
        · rw [show timeoutCallback tid now (t :: ts) =
              { t with status := .failed, endTime := some now } :: ts from by
            simp [timeoutCallback, h1, hr]]
          cases i with
          | zero => exact Or.inr ⟨t, by simp, hr, by simp⟩
          | succ n =>
            left
            simp only [List.getElem?_cons_succ]
        · rw [show timeoutCallback tid now (t :: ts) = t :: ts from by
            simp [timeoutCallback, h1, hr]]
          left
          rfl
      · rw [show timeoutCallback tid now (t :: ts) = t :: timeoutCallback tid now ts from by
          simp [timeoutCallback, h1]]
        cases i with
        | zero =>
          left
          simp
        | succ n =>
          rcases ih n with hc | ⟨x, hx, hrun, heq⟩
          · left
            simp only [List.getElem?_cons_succ]
            exact hc
          · right
            refine ⟨x, ?_, hrun, ?_⟩
            · simp only [List.getElem?_cons_succ]
              exact hx
            · simp only [List.getElem?_cons_succ]
              exact heq
  · intro fe now ts i
    cases hx : ts[i]? with
    | none =>
      left
      simp [checkBackgroundTasks, List.getElem?_map, hx]
    | some t =>
      have hmap : (checkBackgroundTasks fe now ts)[i]? = some (refreshStep fe now t) := by
        simp [checkBackgroundTasks, List.getElem?_map, hx]
      by_cases hr : t.status = .running
      · by_cases hf : fe t.outputFile = true
        · right
          refine ⟨t, rfl, hr, ?_⟩
          rw [hmap]
          simp [refreshStep, hr, hf]
        · left
          rw [hmap]
          simp [refreshStep, hr, hf]
      · left
        rw [hmap]
        simp [refreshStep, hr]

/-- Witness for C3 on a concrete running task. -/
theorem C3_task_state_machine_witness :
    refreshStep (fun _ => false) 5 demoTask = demoTask ∧
    refreshStep (fun _ => true) 5 demoTask =
      { demoTask with status := .completed, endTime := some 5 } ∧
    timeoutCallback "t1" 9 [demoTask] =
      [{ demoTask with status := .failed, endTime := some 9 }] ∧
    (launchBackgroundTask [] "t1" "summarize" "out.md" 3 "task-pane").getLast? =
      some (mkNewTask "t1" "summarize" "out.md" 3 "task-pane" .running) := by
  refine ⟨?_, ?_, ?_, ?_⟩
  · exact (C3_task_state_machine.2.1 (fun _ => false) 5 demoTask).1 (by decide) (by decide)
  · exact (C3_task_state_machine.2.1 (fun _ => true) 5 demoTask).2.1 (by decide) (by decide)
  · exact (C3_task_state_machine.2.2.2.1 "t1" 9 demoTask []).1 (by decide) (by decide)
  · exact (C3_task_state_machine.1 [] "t1" "summarize" "out.md" 3 "task-pane").2

/-- Exhibit for claim C4 against the modelled tmux semantics: with two
directories resolved in a fresh session, a repeated resolution for the
first directory abandons its still-alive pane, because the liveness grep
only sees the current window, and the session-scoped marker variable then
makes the scan adopt the first pane of the whole session; the repeated
resolution for the second directory adopts that same pane, so the
per-directory panes are neither stable nor distinct. -/
theorem C4_registry_demo :
    demoR1.1 ≠ demoR2.1 ∧
    demoR1.1 ∈ demoR3.2.tmux.panes ∧
    demoR3.1 ≠ demoR1.1 ∧
    demoR4.1 = demoR3.1 := by decide

theorem cacheGet_cacheSet (c : List (String × PaneAddr)) (d : String) (p : PaneAddr) :
    cacheGet (cacheSet c d p) d = some p := by
  simp [cacheGet, cacheSet]

theorem envScan_mem (hash : String → String) (t : TmuxState) (dir : String) (q : PaneAddr)
    (h : envScan hash t dir = some q) : q ∈ t.panes := by
  unfold envScan at h
  split at h
  · cases hp : t.panes with
    | nil =>
      rw [hp] at h
      simp at h
    | cons a l =>
      rw [hp] at h
      simp only [List.head?_cons, Option.some.injEq] at h
      subst h
      simp [hp]
  · simp at h

/-- Claim C5: when the cached pane for a directory no longer exists in
the session, the next resolution never returns the stale reference: the
liveness check fails, the cache entry is discarded, and the call adopts
or creates a pane that is alive afterwards; the cache no longer maps the
directory to the stale reference.  The freshness bound says destroyed
window indices are not reallocated, matching the monotone window counter
of the model. -/
theorem C5_no_stale_pane (hash : String → String) (st : SysState) (dir : String) (p : PaneAddr)
    (hcache : cacheGet st.cache dir = some p)
    (hdead : p ∉ st.tmux.panes)
    (halive : st.tmux.activePane ∈ st.tmux.panes)
    (hfresh : p.window < st.tmux.nextWindow) :
    (findOrCreatePane hash st dir).1 ≠ p ∧
    (findOrCreatePane hash st dir).1 ∈ (findOrCreatePane hash st dir).2.tmux.panes ∧
    cacheGet (findOrCreatePane hash st dir).2.cache dir ≠ some p := by
  have hne : ¬ p = st.tmux.activePane := fun h => hdead (h ▸ halive)
  have hnotwin : p ∉ currentWindowPanes st.tmux := fun h => hdead (List.mem_of_mem_filter h)
  simp only [findOrCreatePane, hcache]
  rw [if_neg hne, if_neg hnotwin]
  unfold scanOrCreate
  cases hscan : envScan hash st.tmux dir with
  | some q =>
    have hqmem : q ∈ st.tmux.panes := envScan_mem hash st.tmux dir q hscan
    have hqp : q ≠ p := fun h => hdead (h ▸ hqmem)
    simp only [hscan]
    refine ⟨hqp, hqmem, ?_⟩
    rw [cacheGet_cacheSet]
    intro h
    exact hqp (Option.some.inj h)
  | none =>
    simp only [hscan, createPane]
    refine ⟨?_, ?_, ?_⟩
    · intro h
      rw [← h] at hfresh
      exact absurd hfresh (by simp)
    · simp
    · rw [cacheGet_cacheSet]
      intro h
      have := Option.some.inj h
      rw [← this] at hfresh
      exact absurd hfresh (by simp)

/-- Witness for C5: a concrete session whose cached pane for directory a
was destroyed. -/
theorem C5_no_stale_pane_witness :
    (findOrCreatePane demoHash demoStale "a").1 ≠ ⟨1, 0⟩ ∧
    (findOrCreatePane demoHash demoStale "a").1 ∈
      (findOrCreatePane demoHash demoStale "a").2.tmux.panes ∧
    cacheGet (findOrCreatePane demoHash demoStale "a").2.cache "a" ≠ some ⟨1, 0⟩ :=
  C5_no_stale_pane demoHash demoStale "a" ⟨1, 0⟩ (by decide) (by decide) (by decide) (by decide)

/-- Claim C7: a returned record carries exit code -1 exactly when an
awaited call of a capture tier rejected, in which case the output is the
explanatory text; every other returned record carries exit code 0.  The
model never consults the remote exit status, so the 0 is unconditional
on every non-exception path. -/
theorem C7_exit_codes (commandId command : List Char) (cap : Bool) (env : ExecEnv)
    (r : CommandExecution) (hok : executeInPane commandId command cap env = .ok r) :
    (r.exitCode = -1 ↔ cap = true ∧ tierException env = true) ∧
    (r.exitCode = -1 ∨ r.exitCode = 0) ∧
    (r.exitCode = -1 →
      ∃ e : String, r.output = "Error capturing output: ".toList ++ e.toList) := by
  obtain ⟨sc, s1, sm, s2, s3, snc⟩ := env
  cases sc with
  | error e => simp [executeInPane] at hok
  | ok u =>
    cases cap with
    | false =>
      cases snc with
      | error e => simp [executeInPane] at hok
      | ok content =>
        have hr := hok
        simp only [executeInPane, Bool.false_eq_true, if_false, Except.ok.injEq] at hr
        subst hr
        refine ⟨?_, Or.inr rfl, ?_⟩
        · simp
        · intro h
          simp at h
    | true =>
      have hr : captureFlow commandId command ⟨.ok u, s1, sm, s2, s3, snc⟩ = r := by
        simpa [executeInPane] using hok
      subst hr
      cases s1 with
      | error e =>
        refine ⟨?_, Or.inl rfl, fun _ => ⟨e, rfl⟩⟩
        simp [captureFlow, errorResult, tierException]
      | ok s =>
        cases ht : tier1Capture (splitNL s) with
        | some out =>
          refine ⟨?_, ?_, ?_⟩
          · simp [captureFlow, ht, tierException]
          · right
            simp [captureFlow, ht]
          · intro h
            simp [captureFlow, ht] at h
        | none =>
          cases sm with
          | error e =>
            refine ⟨?_, ?_, ?_⟩
            · simp [captureFlow, ht, tierException, errorResult, isErr]
            · left
              simp [captureFlow, ht, errorResult]
            · intro _
              exact ⟨e, by simp [captureFlow, ht, errorResult]⟩
          | ok v =>
            cases s2 with
            | error e =>
              refine ⟨?_, ?_, ?_⟩
              · simp [captureFlow, ht, tierException, errorResult, isErr]
              · left
                simp [captureFlow, ht, errorResult]
              · intro _
                exact ⟨e, by simp [captureFlow, ht, errorResult]⟩
            | ok buf =>
              cases s3 with
              | error e =>
                refine ⟨?_, ?_, ?_⟩
                · simp [captureFlow, ht, tierException, errorResult, isErr]
                · left
                  simp [captureFlow, ht, errorResult]
                · intro _
                  exact ⟨e, by simp [captureFlow, ht, errorResult]⟩
              | ok full =>
                refine ⟨?_, ?_, ?_⟩
                · simp [captureFlow, ht, tierException, isErr]
                · right
                  simp [captureFlow, ht]
                · intro h
                  simp [captureFlow, ht] at h

/-- Witness for C7 in the all-ok environment. -/
theorem C7_exit_codes_witness :
    (demoResult.exitCode = -1 ↔ true = true ∧ tierException demoEnvOk = true) ∧
    (demoResult.exitCode = -1 ∨ demoResult.exitCode = 0) ∧
    (demoResult.exitCode = -1 →
      ∃ e : String, demoResult.output = "Error capturing output: ".toList ++ e.toList) :=
  C7_exit_codes "7".toList "ls".toList true demoEnvOk demoResult (by rfl)

/-- Claim C9: every record produced by a successful capture counts its
lines as the number of newline-separated pieces of the returned output,
which is at least one, and exactly one for an empty output. -/
theorem C9_lines_captured (commandId command : List Char) (env : ExecEnv)
    (r : CommandExecution) (hok : executeInPane commandId command true env = .ok r)
    (h0 : r.exitCode = 0) :
    r.linesCaptuerd = (splitNL r.output).length ∧ 1 ≤ r.linesCaptuerd ∧
    (r.output = [] → r.linesCaptuerd = 1) := by
  obtain ⟨sc, s1, sm, s2, s3, snc⟩ := env
  cases sc with
  | error e => simp [executeInPane] at hok
  | ok u =>
    have hr : captureFlow commandId command ⟨.ok u, s1, sm, s2, s3, snc⟩ = r := by
      simpa [executeInPane] using hok
    subst hr
    cases s1 with
    | error e => simp [captureFlow, errorResult] at h0
    | ok s =>
      cases ht : tier1Capture (splitNL s) with
      | some out =>
        refine ⟨by simp [captureFlow, ht], ?_, ?_⟩
        · simp only [captureFlow, ht]
          exact length_splitNL_pos _
        · intro h
          simp only [captureFlow, ht] at h ⊢
          rw [h]
          rfl
      | none =>
        cases sm with
        | error e => simp [captureFlow, ht, errorResult] at h0
        | ok v =>
          cases s2 with
          | error e => simp [captureFlow, ht, errorResult] at h0
          | ok buf =>
            cases s3 with
            | error e => simp [captureFlow, ht, errorResult] at h0
            | ok full =>
              refine ⟨by simp [captureFlow, ht], ?_, ?_⟩
              · simp only [captureFlow, ht]
                exact length_splitNL_pos _
              · intro h
                simp only [captureFlow, ht] at h ⊢
                rw [h]
                rfl

/-- Witness for C9 in the all-ok environment. -/
theorem C9_lines_captured_witness :
    demoResult.linesCaptuerd = (splitNL demoResult.output).length ∧
    1 ≤ demoResult.linesCaptuerd ∧
    (demoResult.output = [] → demoResult.linesCaptuerd = 1) :=
  C9_lines_captured "7".toList "ls".toList demoEnvOk demoResult (by rfl) (by rfl)

/-- Truncation model check for claim C8: outputs of at most 2000
characters are logged unchanged; longer outputs are logged as the first
1000 characters, a newline, the truncation literal, a newline, and the
last 1000 characters, for a total of 1000 plus the literal length plus
1000 plus the two newlines. -/
theorem C8_log_truncation (s : List Char) :
    truncMarker = '\n' :: ("...truncated...".toList ++ ['\n']) ∧
    (s.length ≤ 2000 → logTruncate s = s) ∧
    (2000 < s.length →
      logTruncate s = s.take 1000 ++ truncMarker ++ s.drop (s.length - 1000) ∧
      (logTruncate s).length = 1000 + "...truncated...".length + 1000 + 2) := by
  refine ⟨by decide, ?_, ?_⟩
  · intro hle
    simp only [logTruncate, if_neg (show ¬ 2000 < s.length by omega)]
  · intro hgt
    constructor
    · simp only [logTruncate, if_pos hgt]
    · simp only [logTruncate, if_pos hgt, List.length_append, List.length_take,
        List.length_drop]
      have hm : truncMarker.length = 17 := by decide
      have hs : ("...truncated...".length : Nat) = 15 := by decide
      omega

/-- Witness for C8 at a concrete 3000-character output. -/
theorem C8_log_truncation_witness :
    (logTruncate (List.replicate 3000 'a')).length =
      1000 + "...truncated...".length + 1000 + 2 :=
  ((C8_log_truncation (List.replicate 3000 'a')).2.2
    (by rw [List.length_replicate]; omega)).2

/-- Truncation length for claim C10: every truncated log output has
exactly 2017 characters, so originals of 2001 to 2016 characters grow
under truncation. -/
theorem C10_truncated_length (s : List Char) (hgt : 2000 < s.length) :
    (logTruncate s).length = 2017 ∧
    (s.length ≤ 2016 → s.length < (logTruncate s).length) := by
  have hm : truncMarker.length = 17 := by decide
  have hlen : (logTruncate s).length = 2017 := by
    simp only [logTruncate, if_pos hgt, List.length_append, List.length_take,
      List.length_drop]
    omega
  exact ⟨hlen, fun hle => by omega⟩

/-- Witness for C10 at a concrete 2005-character output. -/
theorem C10_truncated_length_witness :
    (logTruncate (List.replicate 2005 'a')).length = 2017 ∧
    ((List.replicate 2005 'a').length ≤ 2016 →
      (List.replicate 2005 'a').length < (logTruncate (List.replicate 2005 'a')).length) :=
  C10_truncated_length (List.replicate 2005 'a') (by rw [List.length_replicate]; omega)

end TPane
